import Mathlib

/-!
Shallow embedding of the event core of the go-web3 repository
(internal/events: Listener, TransactionProcessor, Service, WebSocketClient),
together with proofs checking the natural-language specification against it.

Modelling conventions:
* Go `[20]byte` addresses and `[32]byte` hashes are modelled as `Nat`
  (only equality and the zero value matter to the properties below);
  the Go zero value `common.Address{}` is `0`.
* Go `*big.Int` is modelled as `Int`.
* Go `[]byte` is modelled as `List Byte` with `Byte := Fin 256`.
* Go ASCII strings that the code compares character by character
  (hex method signatures) are modelled as `List Char`.
* External collaborators (the RPC client, signature recovery) are modelled
  as inputs: `types.Sender` succeeding or failing is a `senderRecovery :
  Option Address` field of the transaction, and `client.BlockByHash` is a
  `fetch : Hash -> Option Block` argument of the dispatch loop.
-/

namespace GoWeb3

abbrev Byte := Fin 256
abbrev Address := Nat
abbrev Hash := Nat

/-- A transaction as the code observes it via the go-ethereum accessors
`tx.Hash()`, `tx.To()`, `tx.Value()`, `tx.GasPrice()`, `tx.Gas()`,
`tx.Data()`; `senderRecovery` models the outcome of
`types.Sender(types.LatestSignerForChainID(tx.ChainId()), tx)`:
`none` when that call returns an error. -/
structure Transaction where
  hash : Hash
  toAddr? : Option Address
  value : Int
  gasPrice : Int
  gas : Nat
  data : List Byte
  senderRecovery : Option Address
deriving DecidableEq

/-- `TransactionInfo` from events/processor: enriched view of a transaction.
`fromAddr`/`toAddr` are plain (non-optional) address fields exactly as in the
Go struct, whose zero value is the zero address. -/
structure TransactionInfo where
  tx : Transaction
  blockHash : Hash
  blockNumber : Nat
  fromAddr : Address
  toAddr : Address
  value : Int
  gasPrice : Int
  gas : Nat
  input : List Byte
  isContractCall : Bool
deriving DecidableEq

/-- `TransactionFilter`: optional criteria; `methodSignature = []` models the
Go empty string (the "absent" value of that criterion). -/
structure TransactionFilter where
  fromAddress : Option Address
  toAddress : Option Address
  minValue : Option Int
  onlyContractTxs : Bool
  methodSignature : List Char
deriving DecidableEq

/-- The filter with no criteria present. -/
def emptyFilter : TransactionFilter :=
  { fromAddress := none, toAddress := none, minValue := none,
    onlyContractTxs := false, methodSignature := [] }

/-- One lowercase hex digit, mirroring the `"0123456789abcdef"` table used by
`hex.EncodeToString` (reached through `common.Bytes2Hex`). -/
def hexDigitChar (n : Nat) : Char :=
  if n < 10 then Char.ofNat (48 + n) else Char.ofNat (87 + n)

/-- Hex encoding of one byte: two lowercase hex digits. -/
def byteToHex (b : Byte) : List Char :=
  [hexDigitChar (b.val / 16), hexDigitChar (b.val % 16)]

/-- `common.Bytes2Hex`: lowercase hex encoding of a byte slice. -/
def bytes2Hex (bs : List Byte) : List Char :=
  (bs.map byteToHex).flatten

/-- ASCII case folding of one character, as `strings.EqualFold` behaves on
the ASCII range (the only characters hex comparison can meet). -/
def foldChar (c : Char) : Char :=
  if 'A' ≤ c ∧ c ≤ 'Z' then Char.ofNat (c.toNat + 32) else c

/-- `strings.EqualFold` restricted to the ASCII range: equality after
case folding. -/
def eqFold (s t : List Char) : Bool :=
  s.map foldChar == t.map foldChar

/-- `strings.TrimPrefix(signature, "0x")`. -/
def trim0x (s : List Char) : List Char :=
  match s with
  | '0' :: 'x' :: rest => rest
  | _ => s

/-- `matchesMethodSignature` from events/processor: input data matches a
method signature when the data has at least 4 bytes and the lowercase hex of
its first 4 bytes equals, case-insensitively, the first 8 characters of the
signature (after dropping an optional `0x` prefix); a signature with fewer
than 8 remaining characters matches nothing. -/
def matchesMethodSignature (data : List Byte) (signature : List Char) : Bool :=
  if data.length < 4 then
    false
  else
    let signature := trim0x signature
    if 8 ≤ signature.length then
      eqFold (bytes2Hex (data.take 4)) (signature.take 8)
    else
      false

/-- `matchesFilter` from events/processor: the sequential early-return chain
(sender, recipient, minimum value, contract-call flag, method signature),
rendered as a short-circuit conjunction; each conjunct is the negation of one
`return false` guard. -/
def matchesFilter (f : TransactionFilter) (info : TransactionInfo) : Bool :=
  (match f.fromAddress with
   | none => true
   | some a => info.fromAddr == a) &&
  (match f.toAddress with
   | none => true
   | some a => info.toAddr == a) &&
  (match f.minValue with
   | none => true
   | some m => !(decide (info.value < m))) &&
  (!f.onlyContractTxs || info.isContractCall) &&
  (f.methodSignature == [] || matchesMethodSignature info.input f.methodSignature)

/-- The enrichment performed by the closure in `TransactionProcessor.Start`:
`To` is set only when `tx.To() != nil` (zero address otherwise), `From` is
set only when sender recovery succeeds (zero address otherwise), and
`IsContractCall` is `len(tx.Data()) > 0 && tx.To() != nil`. -/
def mkTransactionInfo (tx : Transaction) (blockHash : Hash)
    (blockNumber : Nat) : TransactionInfo :=
  { tx := tx
    blockHash := blockHash
    blockNumber := blockNumber
    fromAddr := tx.senderRecovery.getD 0
    toAddr := tx.toAddr?.getD 0
    value := tx.value
    gasPrice := tx.gasPrice
    gas := tx.gas
    input := tx.data
    isContractCall := decide (0 < tx.data.length) && tx.toAddr?.isSome }

/-- The filtering step of the `TransactionProcessor.Start` closure:
`some info` exactly when the handlers are invoked with `info`
(`if p.filter != nil && !p.matchesFilter(info) { return }`). -/
def processTransaction (activeFilter : Option TransactionFilter)
    (tx : Transaction) (blockHash : Hash) (blockNumber : Nat) :
    Option TransactionInfo :=
  let info := mkTransactionInfo tx blockHash blockNumber
  match activeFilter with
  | none => some info
  | some f => if matchesFilter f info then some info else none

/-- The 1 wei above / at-most comparison threshold used by the handler that
`setupSubscriptions` registers: `big.NewInt(1000000000000000000)` (1 ETH). -/
def highValueLogThreshold : Int := 1000000000000000000

/-- The derived wire message built by the `setupSubscriptions` transaction
handler: `{type: "high_value_transaction", hash, from, to, value, blockHash}`
(field values kept as model values; hex rendering is injective and dropped). -/
structure HighValueAlertMsg where
  hash : Hash
  fromAddr : Address
  toAddr : Address
  value : Int
  blockHash : Hash
deriving DecidableEq

/-- The transaction handler that `setupSubscriptions` passes to
`OnTransaction`. The 1-ETH comparison `info.Value.Cmp(...) > 0` guards only
the `log.Printf` call (first component); the `high_value_transaction` map is
built, marshalled (`json.Marshal` of this map of strings cannot fail) and
broadcast unconditionally — the second component lists the messages the
handler hands to `broadcastRawEvent`. -/
def serviceTxHandler (info : TransactionInfo) : Bool × List HighValueAlertMsg :=
  (decide (highValueLogThreshold < info.value),
   [{ hash := info.tx.hash, fromAddr := info.fromAddr, toAddr := info.toAddr,
      value := info.value, blockHash := info.blockHash }])

/-! ### WebSocket client and broadcast registry -/

/-- The wire payload handed to `Send`: a `[]byte` of serialized JSON. -/
abbrev Msg := List Byte

/-- `EventFilters` from events/websocket: the connection's advisory interest
set, updated by `filter` control frames and read nowhere else. -/
structure EventFilters where
  eventTypes : List String
  contractAddress : List String
deriving DecidableEq

/-- `WebSocketClient`: `sendQueue` models the buffered channel `send`
(contents in FIFO order), `capacity` its buffer capacity, `closed` whether
`cancel()` has run (`ctx.Done()` closed). The underlying `*websocket.Conn`
carries no state the verified properties observe. -/
structure WebSocketClient where
  id : String
  sendQueue : List Msg
  capacity : Nat
  closed : Bool
  filters : EventFilters
deriving DecidableEq

/-- `NewWebSocketClient`: fresh client with an empty buffered channel of
capacity 256 and a live context. The uuid is a parameter. -/
def newWebSocketClient (id : String) : WebSocketClient :=
  { id := id, sendQueue := [], capacity := 256, closed := false,
    filters := { eventTypes := [], contractAddress := [] } }

/-- The two error values `Send` can produce. -/
inductive SendError where
  | connClosed
  | bufferFull
deriving DecidableEq

/-- `WebSocketClient.Close`: cancels the context (idempotent here; closing
the transport carries no modelled state). -/
def WebSocketClient.close (c : WebSocketClient) : WebSocketClient :=
  { c with closed := true }

/-- `WebSocketClient.Send`: the non-blocking `select`. With the channel not
full and the context live, the buffered send succeeds; with the context
cancelled, the `ctx.Done()` branch returns the "connection closed" error;
otherwise (`default`) the client is closed and the "buffer full" error
returned. (When the context is cancelled while the channel still has room,
Go picks between the first two branches nondeterministically; this model
fixes the `ctx.Done()` branch — no verified property depends on that case.) -/
def WebSocketClient.send (c : WebSocketClient) (m : Msg) :
    WebSocketClient × Option SendError :=
  if c.closed = false ∧ c.sendQueue.length < c.capacity then
    ({ c with sendQueue := c.sendQueue ++ [m] }, none)
  else if c.closed then
    (c, some SendError.connClosed)
  else
    (c.close, some SendError.bufferFull)

/-- The service registry `clients` (`map[string]*WebSocketClient`), as the
list of its entries in iteration order. -/
abbrev Registry := List WebSocketClient

/-- `Service.broadcastRawEvent`: offer the serialized event to every
registered client's queue; a `Send` error is only logged — the comment in
the source is explicit that the client is *not* unregistered there ("let
the ping/pong handle it"), so the registry keeps all its entries. -/
def broadcastRawEvent (clients : Registry) (eventJSON : Msg) : Registry :=
  clients.map (fun c => (c.send eventJSON).1)

/-- Erase the advisory interest filters, keeping every other field; two
registries with the same image under this map differ at most in their
`filters` fields. -/
def eraseFilters (c : WebSocketClient) : WebSocketClient :=
  { c with filters := { eventTypes := [], contractAddress := [] } }

/-! ### Listener block-dispatch loop -/

/-- The three event types of events/listener. -/
inductive EventType where
  | newBlock
  | newTransaction
  | contractEvent
deriving DecidableEq

/-- A block header as delivered by `SubscribeNewHead`; only `header.Hash()`
is consumed by the loop. -/
structure Header where
  hash : Hash
deriving DecidableEq

/-- A full block as returned by `BlockByHash`: `block.Hash()`,
`block.NumberU64()`, `block.Transactions()`. -/
structure Block where
  hash : Hash
  number : Nat
  transactions : List Transaction
deriving DecidableEq

/-- `Event.Data` (`interface{}`): the payload variants the block loop
produces. -/
inductive EventData where
  | block (b : Block)
  | transaction (t : Transaction)
deriving DecidableEq

/-- `Event` from events/listener. `txHash` is the zero value for block
events (the field is left unset there). -/
structure Event where
  type : EventType
  blockHash : Hash
  blockNum : Nat
  txHash : Hash
  data : EventData
deriving DecidableEq

/-- The events the loop body emits for one successfully fetched block: the
`NewBlock` event, then one `NewTransaction` event per transaction of
`block.Transactions()` in slice order. -/
def blockEvents (b : Block) : List Event :=
  { type := EventType.newBlock, blockHash := b.hash, blockNum := b.number,
    txHash := 0, data := EventData.block b }
  :: b.transactions.map (fun t =>
      { type := EventType.newTransaction, blockHash := b.hash,
        blockNum := b.number, txHash := t.hash,
        data := EventData.transaction t })

/-- One iteration of the `subscribeToNewBlocks` goroutine for one received
header: fetch the full block via `BlockByHash` (`fetch`); on error, log and
`continue` (no events); on success, notify with the block event then the
transaction events. -/
def processHeader (fetch : Hash → Option Block) (h : Header) : List Event :=
  match fetch h.hash with
  | none => []
  | some b => blockEvents b

/-- The event trace of the `subscribeToNewBlocks` goroutine over a finite
sequence of headers delivered on the `headers` channel. -/
def listenerEmit (fetch : Hash → Option Block) (headers : List Header) :
    List Event :=
  (headers.map (processHeader fetch)).flatten

/-! ### Concrete sample data used by counterexamples and witnesses -/

/-- A transaction whose sender recovery failed (`types.Sender` errored). -/
def txNoSender : Transaction :=
  { hash := 1, toAddr? := some 7, value := 5, gasPrice := 0, gas := 0,
    data := [], senderRecovery := none }

/-- A filter requiring the zero sender address. -/
def zeroSenderFilter : TransactionFilter :=
  { emptyFilter with fromAddress := some 0 }

/-- A filter requiring sender address 3. -/
def watchFilter3 : TransactionFilter :=
  { emptyFilter with fromAddress := some 3 }

/-- A low-value transaction (5 wei) with a recovered sender. -/
def lowValueTx : Transaction :=
  { hash := 9, toAddr? := some 4, value := 5, gasPrice := 0, gas := 0,
    data := [], senderRecovery := some 8 }

/-- A filter requiring a minimum value of 1 wei. -/
def minValueFilter : TransactionFilter :=
  { emptyFilter with minValue := some 1 }

/-- The ERC-20 `transfer` selector, lowercase with `0x` prefix. -/
def sigTransferLower : List Char := ['0', 'x', 'a', '9', '0', '5', '9', 'c', 'b', 'b']

/-- The same selector, uppercase hex with `0x` prefix. -/
def sigTransferUpper : List Char := ['0', 'x', 'A', '9', '0', '5', '9', 'C', 'B', 'B']

/-- The same selector without the `0x` prefix. -/
def sigTransferBare : List Char := ['a', '9', '0', '5', '9', 'c', 'b', 'b']

/-- A live client with capacity 1 whose queue is saturated. -/
def fullClient : WebSocketClient :=
  { id := "a", sendQueue := [[0]], capacity := 1, closed := false,
    filters := { eventTypes := [], contractAddress := [] } }

/-- A fresh client (empty queue, capacity 256). -/
def emptyClient : WebSocketClient := newWebSocketClient "b"

/-- The fresh client after a `filter` control frame installed a nontrivial
advisory interest set. -/
def interestedClient : WebSocketClient :=
  { emptyClient with
    filters := { eventTypes := ["new_block"], contractAddress := ["0x1"] } }

/-- A sample block with one transaction. -/
def sampleBlock1 : Block :=
  { hash := 1, number := 10, transactions := [lowValueTx] }

/-- A sample empty block. -/
def sampleBlock2 : Block :=
  { hash := 2, number := 11, transactions := [] }

/-- A sample `BlockByHash` collaborator knowing the two sample blocks. -/
def sampleFetch : Hash → Option Block := fun h =>
  if h = 1 then some sampleBlock1 else if h = 2 then some sampleBlock2 else none

/-- The block each sample header resolves to. -/
def sampleBof : Header → Block := fun h =>
  if h.hash = 1 then sampleBlock1 else sampleBlock2

/-! ### Hex-encoding lemmas -/

lemma hexDigitChar_inj_fin :
    ∀ x y : Fin 16, hexDigitChar x.val = hexDigitChar y.val → x = y := by
  decide

lemma foldChar_hexDigitChar_fin :
    ∀ x : Fin 16, foldChar (hexDigitChar x.val) = hexDigitChar x.val := by
  decide

lemma hexDigitChar_inj (x y : Nat) (hx : x < 16) (hy : y < 16)
    (h : hexDigitChar x = hexDigitChar y) : x = y := by
  have := hexDigitChar_inj_fin ⟨x, hx⟩ ⟨y, hy⟩ h
  exact congrArg Fin.val this

lemma foldChar_byteToHex (b : Byte) :
    (byteToHex b).map foldChar = byteToHex b := by
  have hb := b.isLt
  have h1 : b.val / 16 < 16 := by omega
  have h2 : b.val % 16 < 16 := Nat.mod_lt _ (by norm_num)
  simpa [byteToHex] using
    ⟨foldChar_hexDigitChar_fin ⟨_, h1⟩, foldChar_hexDigitChar_fin ⟨_, h2⟩⟩

lemma foldChar_bytes2Hex (l : List Byte) :
    (bytes2Hex l).map foldChar = bytes2Hex l := by
  induction l with
  | nil => rfl
  | cons b t ih =>
      simp only [bytes2Hex, List.map_cons, List.flatten_cons, List.map_append]
      rw [foldChar_byteToHex]
      simpa [bytes2Hex] using ih

lemma bytes2Hex_inj (l t : List Byte) (h : bytes2Hex l = bytes2Hex t) :
    l = t := by
  induction l generalizing t with
  | nil =>
      cases t with
      | nil => rfl
      | cons c tc => simp [bytes2Hex, byteToHex] at h
  | cons b tl ih =>
      cases t with
      | nil => simp [bytes2Hex, byteToHex] at h
      | cons c tc =>
          simp only [bytes2Hex, List.map_cons, List.flatten_cons, byteToHex,
            List.cons_append, List.nil_append, List.cons.injEq] at h
          obtain ⟨h1, h2, h3⟩ := h
          have hb := b.isLt
          have hc := c.isLt
          have e1 : b.val / 16 = c.val / 16 :=
            hexDigitChar_inj _ _ (by omega) (by omega) h1
          have e2 : b.val % 16 = c.val % 16 :=
            hexDigitChar_inj _ _ (Nat.mod_lt _ (by norm_num))
              (Nat.mod_lt _ (by norm_num)) h2
          have hbc : b = c := Fin.ext (by omega)
          have htl : tl = tc := ih tc (by simpa [bytes2Hex] using h3)
          rw [hbc, htl]

lemma eqFold_bytes2Hex (l t : List Byte) :
    eqFold (bytes2Hex l) (bytes2Hex t) = true ↔ l = t := by
  constructor
  · intro h
    apply bytes2Hex_inj
    simpa [eqFold, foldChar_bytes2Hex] using h
  · rintro rfl
    simp [eqFold]

lemma matchesMethodSignature_long (d : List Byte) (h4 : ¬ d.length < 4)
    (s : List Char) :
    matchesMethodSignature d s =
      if 8 ≤ (trim0x s).length then
        eqFold (bytes2Hex (d.take 4)) ((trim0x s).take 8)
      else false := by
  simp [matchesMethodSignature, h4]

lemma eqFold_congr_right (x s t : List Char) (h : s.map foldChar = t.map foldChar) :
    eqFold x s = eqFold x t := by
  simp [eqFold, h]

/-! ### Filter conjunct lemmas -/

lemma addrCheck_iff (o : Option Address) (x : Address) :
    (match o with | none => true | some a => x == a) = true ↔
      ∀ a, o = some a → x = a := by
  cases o <;> simp

lemma minCheck_iff (o : Option Int) (v : Int) :
    (match o with | none => true | some m => !(decide (v < m))) = true ↔
      ∀ m, o = some m → m ≤ v := by
  cases o <;> simp

lemma contractCheck_iff (oc icc : Bool) :
    (!oc || icc) = true ↔ (oc = true → icc = true) := by
  cases oc <;> simp

lemma sigCheck_iff (ms : List Char) (input : List Byte) :
    (ms == [] || matchesMethodSignature input ms) = true ↔
      (ms ≠ [] → matchesMethodSignature input ms = true) := by
  by_cases h : ms = [] <;> simp [h]

/-! ### Claim theorems -/

/-- C4: for every TransactionFilter f and TransactionInfo t, `matchesFilter
f t` is true iff every present criterion of f (sender, recipient, minimum
value, only-contract-calls flag, method signature) is individually satisfied
by t, an absent criterion imposing no constraint; in particular the filter
with no criteria present matches every transaction. -/
theorem matchesFilter_conjunction_law (f : TransactionFilter)
    (t : TransactionInfo) :
    (matchesFilter f t = true ↔
      ((∀ a, f.fromAddress = some a → t.fromAddr = a) ∧
       (∀ a, f.toAddress = some a → t.toAddr = a) ∧
       (∀ m, f.minValue = some m → m ≤ t.value) ∧
       (f.onlyContractTxs = true → t.isContractCall = true) ∧
       (f.methodSignature ≠ [] →
         matchesMethodSignature t.input f.methodSignature = true))) ∧
    matchesFilter emptyFilter t = true := by
  constructor
  · simp only [matchesFilter, Bool.and_eq_true]
    rw [addrCheck_iff, addrCheck_iff, minCheck_iff, contractCheck_iff,
      sigCheck_iff]
    tauto
  · simp [matchesFilter, emptyFilter]

/-- C7: a method-signature filter with the signature `"0xa9059cbb"` matches
input data iff the data is at least 4 bytes long and its first 4 bytes are
`a9 05 9c bb`; the hex comparison is case-insensitive, an optional `0x`
prefix is ignored, and input shorter than 4 bytes matches no method
signature at all. -/
theorem transferSignature_matching (d : List Byte) :
    (matchesMethodSignature d sigTransferLower = true ↔
      4 ≤ d.length ∧ d.take 4 = [169, 5, 156, 187]) ∧
    matchesMethodSignature d sigTransferUpper =
      matchesMethodSignature d sigTransferLower ∧
    matchesMethodSignature d sigTransferBare =
      matchesMethodSignature d sigTransferLower ∧
    (∀ s : List Char, d.length < 4 → matchesMethodSignature d s = false) := by
  by_cases h4 : d.length < 4
  · refine ⟨?_, ?_, ?_, ?_⟩
    · simp only [matchesMethodSignature, if_pos h4]
      constructor
      · intro h; exact absurd h (by simp)
      · intro h; omega
    · simp [matchesMethodSignature, h4]
    · simp [matchesMethodSignature, h4]
    · intro s _; simp [matchesMethodSignature, h4]
  · have hlow : matchesMethodSignature d sigTransferLower =
        eqFold (bytes2Hex (d.take 4)) sigTransferBare := by
      rw [matchesMethodSignature_long d h4,
        show trim0x sigTransferLower = sigTransferBare from rfl,
        if_pos (by decide : (8 : Nat) ≤ sigTransferBare.length),
        show sigTransferBare.take 8 = sigTransferBare from rfl]
    have hupper : matchesMethodSignature d sigTransferUpper =
        eqFold (bytes2Hex (d.take 4)) sigTransferBare := by
      rw [matchesMethodSignature_long d h4,
        show trim0x sigTransferUpper = ['A','9','0','5','9','C','B','B'] from
          rfl,
        if_pos (by decide :
          (8 : Nat) ≤ (['A','9','0','5','9','C','B','B'] : List Char).length),
        show (['A','9','0','5','9','C','B','B'] : List Char).take 8 =
          ['A','9','0','5','9','C','B','B'] from rfl]
      exact eqFold_congr_right _ _ _ (by decide)
    have hbare : matchesMethodSignature d sigTransferBare =
        eqFold (bytes2Hex (d.take 4)) sigTransferBare := by
      rw [matchesMethodSignature_long d h4,
        show trim0x sigTransferBare = sigTransferBare from rfl,
        if_pos (by decide : (8 : Nat) ≤ sigTransferBare.length),
        show sigTransferBare.take 8 = sigTransferBare from rfl]
    refine ⟨?_, by rw [hupper, hlow], by rw [hbare, hlow], ?_⟩
    · rw [hlow,
        show sigTransferBare = bytes2Hex [169, 5, 156, 187] from by decide,
        eqFold_bytes2Hex]
      constructor
      · intro h; exact ⟨by omega, h⟩
      · intro h; exact h.2
    · intro s hs; exact absurd hs h4

/-- C10: a method signature that is non-empty but shorter than 8 characters
after stripping an optional `0x` prefix is not treated as a shorter prefix:
it matches no input data at all. -/
theorem shortSignature_matchesNothing (data : List Byte) (s : List Char)
    (hne : trim0x s ≠ []) (hlen : (trim0x s).length < 8) :
    matchesMethodSignature data s = false := by
  by_cases h4 : data.length < 4
  · simp [matchesMethodSignature, h4]
  · rw [matchesMethodSignature_long data h4, if_neg (by omega)]

/-- Witness for C10: the 3-character signature `"abc"` rejects 4-byte
input data. -/
theorem shortSignature_matchesNothing_witness :
    matchesMethodSignature [1, 2, 3, 4] ['a', 'b', 'c'] = false :=
  shortSignature_matchesNothing [1, 2, 3, 4] ['a', 'b', 'c']
    (by decide) (by decide)

/-- C2 counterexample: a transaction whose sender recovery failed leaves
`From` at the zero address, so a filter requiring the zero sender address
matches it and the processor reports it to the handlers — refuting the claim
for the required address value zero. -/
theorem missingSender_zeroFilter_counterexample :
    txNoSender.senderRecovery = none ∧
    zeroSenderFilter.fromAddress = some 0 ∧
    matchesFilter zeroSenderFilter (mkTransactionInfo txNoSender 2 3) = true ∧
    (processTransaction (some zeroSenderFilter) txNoSender 2 3).isSome = true := by
  decide

/-- C2 amended: for every filter whose required sender address is not the
zero address, a transaction whose sender could not be recovered never
matches (the missing sender is stored as the zero address, so only the zero
address can spuriously match). -/
theorem missingSender_fails_nonzero_requirement (f : TransactionFilter)
    (tx : Transaction) (bh : Hash) (bn : Nat) (a : Address)
    (hrec : tx.senderRecovery = none) (hreq : f.fromAddress = some a)
    (hnz : a ≠ 0) :
    matchesFilter f (mkTransactionInfo tx bh bn) = false ∧
    processTransaction (some f) tx bh bn = none := by
  have hfrom : (mkTransactionInfo tx bh bn).fromAddr = 0 := by
    simp [mkTransactionInfo, hrec]
  have hm : matchesFilter f (mkTransactionInfo tx bh bn) = false := by
    simp only [matchesFilter, hreq, hfrom]
    rw [show ((0 : Address) == a) = false from by
      simpa using fun h => hnz h.symm]
    simp
  exact ⟨hm, by simp [processTransaction, hm]⟩

/-- Witness for the C2 amended theorem: a filter requiring sender 3
rejects the sample sender-less transaction. -/
theorem missingSender_fails_nonzero_requirement_witness :
    matchesFilter watchFilter3 (mkTransactionInfo txNoSender 2 3) = false ∧
    processTransaction (some watchFilter3) txNoSender 2 3 = none :=
  missingSender_fails_nonzero_requirement watchFilter3 txNoSender 2 3 3
    rfl rfl (by decide)

/-- C3 counterexample: a transaction of value 5 wei passes the installed
minimum-value-1 filter, its value is at or below the 1-ETH threshold, and
the registered handler still broadcasts the derived
`high_value_transaction` message — refuting "only for high-value matches". -/
theorem highValueAlert_lowValue_counterexample :
    processTransaction (some minValueFilter) lowValueTx 2 3 =
      some (mkTransactionInfo lowValueTx 2 3) ∧
    (mkTransactionInfo lowValueTx 2 3).value ≤ highValueLogThreshold ∧
    (serviceTxHandler (mkTransactionInfo lowValueTx 2 3)).2 ≠ [] := by
  decide

/-- C3 amended: the transaction handler registered by `setupSubscriptions`
broadcasts the derived `high_value_transaction` message for every
filter-matching transaction regardless of its value; the high-value
threshold gates only the log line. -/
theorem serviceTxHandler_alert_for_every_match
    (activeFilter : Option TransactionFilter) (tx : Transaction) (bh : Hash)
    (bn : Nat) (info : TransactionInfo)
    (h : processTransaction activeFilter tx bh bn = some info) :
    (serviceTxHandler info).2 =
      [{ hash := info.tx.hash, fromAddr := info.fromAddr,
         toAddr := info.toAddr, value := info.value,
         blockHash := info.blockHash }] ∧
    ((serviceTxHandler info).1 = true ↔ highValueLogThreshold < info.value) := by
  exact ⟨rfl, by simp [serviceTxHandler]⟩

/-- Witness for the C3 amended theorem at the low-value sample match. -/
theorem serviceTxHandler_alert_for_every_match_witness :
    (serviceTxHandler (mkTransactionInfo lowValueTx 2 3)).2 =
      [{ hash := (mkTransactionInfo lowValueTx 2 3).tx.hash,
         fromAddr := (mkTransactionInfo lowValueTx 2 3).fromAddr,
         toAddr := (mkTransactionInfo lowValueTx 2 3).toAddr,
         value := (mkTransactionInfo lowValueTx 2 3).value,
         blockHash := (mkTransactionInfo lowValueTx 2 3).blockHash }] ∧
    ((serviceTxHandler (mkTransactionInfo lowValueTx 2 3)).1 = true ↔
      highValueLogThreshold < (mkTransactionInfo lowValueTx 2 3).value) :=
  serviceTxHandler_alert_for_every_match (some minValueFilter) lowValueTx 2 3
    (mkTransactionInfo lowValueTx 2 3) (by decide)

/-- Witness for C7: the `transfer` selector followed by an extra byte
matches the lowercase prefixed signature. -/
theorem transferSignature_matching_witness :
    matchesMethodSignature [169, 5, 156, 187, 7] sigTransferLower = true :=
  (transferSignature_matching [169, 5, 156, 187, 7]).1.mpr
    ⟨by decide, by decide⟩

/-- Witness for C4: the empty filter accepts the sample transaction. -/
theorem matchesFilter_conjunction_law_witness :
    matchesFilter emptyFilter (mkTransactionInfo lowValueTx 2 3) = true :=
  (matchesFilter_conjunction_law emptyFilter (mkTransactionInfo lowValueTx 2 3)).2

/-! ### Send and broadcast lemmas -/

lemma send_filters (c : WebSocketClient) (m : Msg) :
    ((c.send m).1).filters = c.filters := by
  unfold WebSocketClient.send
  split_ifs <;> rfl

lemma send_eraseFilters (c : WebSocketClient) (m : Msg) :
    ((eraseFilters c).send m).1 = eraseFilters ((c.send m).1) := by
  cases c
  simp only [WebSocketClient.send, eraseFilters, WebSocketClient.close]
  split_ifs <;> rfl

/-- C6: the outbound queue never exceeds the configured capacity (256 for a
fresh client); a `Send` on a live saturated client returns the buffer-full
error without enqueueing (all queued messages kept, capacity unchanged) and
closes the connection. -/
theorem send_bounded_queue (c : WebSocketClient) (m : Msg) (id : String) :
    (c.sendQueue.length ≤ c.capacity →
      ((c.send m).1).sendQueue.length ≤ c.capacity) ∧
    ((c.send m).1).capacity = c.capacity ∧
    (c.closed = false → c.sendQueue.length = c.capacity →
      c.send m = ({ c with closed := true }, some SendError.bufferFull)) ∧
    (newWebSocketClient id).capacity = 256 ∧
    (newWebSocketClient id).sendQueue = [] := by
  by_cases hcl : c.closed = false
  · by_cases hq : c.sendQueue.length < c.capacity
    · refine ⟨?_, ?_, ?_, rfl, rfl⟩
      · intro _
        simp [WebSocketClient.send, hcl, hq]
        omega
      · simp [WebSocketClient.send, hcl, hq]
      · intro _ heq; omega
    · refine ⟨?_, ?_, ?_, rfl, rfl⟩
      · intro hle
        simp [WebSocketClient.send, hcl, hq, WebSocketClient.close]
        exact hle
      · simp [WebSocketClient.send, hcl, hq, WebSocketClient.close]
      · intro _ _
        simp [WebSocketClient.send, hcl, hq, WebSocketClient.close]
  · have hcl' : c.closed = true := by
      cases h : c.closed
      · exact absurd h hcl
      · rfl
    refine ⟨?_, ?_, ?_, rfl, rfl⟩
    · intro hle
      simp [WebSocketClient.send, hcl', hle]
    · simp [WebSocketClient.send, hcl']
    · intro h _; exact absurd h hcl

/-- Witness for C6: sending to the saturated live sample client returns the
buffer-full error and closes it. -/
theorem send_bounded_queue_witness :
    fullClient.send [7] =
      ({ fullClient with closed := true }, some SendError.bufferFull) :=
  (send_bounded_queue fullClient [7] "x").2.2.1 rfl (by decide)

/-- C1 counterexample: broadcasting to a registry of M = 2 live clients
where exactly the first one's queue is full leaves both entries (both ids)
in the registry — not M − 1 = 1 as the claim states; the full client is not
unregistered by the broadcast. -/
theorem broadcast_fullQueue_counterexample :
    fullClient.sendQueue.length = fullClient.capacity ∧
    (broadcastRawEvent [fullClient, emptyClient] [7]).map (fun c => c.id)
      = ["a", "b"] ∧
    ¬ (broadcastRawEvent [fullClient, emptyClient] [7]).length = 1 := by
  decide

/-- C1 amended: broadcasting to a registry of live clients enqueues the
serialized message on every client whose queue has room, closes (but does
not unregister) every client whose queue is full, and leaves the registry
with the same entries — M entries with unchanged ids, the full client's
removal being deferred to the liveness probe. -/
theorem broadcast_fullQueue_amended (reg : Registry) (m : Msg)
    (hopen : ∀ c ∈ reg, c.closed = false) :
    broadcastRawEvent reg m =
      reg.map (fun c =>
        if c.sendQueue.length < c.capacity then
          { c with sendQueue := c.sendQueue ++ [m] }
        else
          c.close) ∧
    (broadcastRawEvent reg m).map (fun c => c.id) = reg.map (fun c => c.id) ∧
    (broadcastRawEvent reg m).length = reg.length := by
  have h1 : broadcastRawEvent reg m =
      reg.map (fun c =>
        if c.sendQueue.length < c.capacity then
          { c with sendQueue := c.sendQueue ++ [m] }
        else
          c.close) := by
    unfold broadcastRawEvent
    refine List.map_congr_left ?_
    intro c hc
    have hcl := hopen c hc
    by_cases hq : c.sendQueue.length < c.capacity
    · simp [WebSocketClient.send, hcl, hq]
    · simp [WebSocketClient.send, hcl, hq]
  refine ⟨h1, ?_, ?_⟩
  · rw [h1, List.map_map]
    refine List.map_congr_left ?_
    intro c _
    by_cases hq : c.sendQueue.length < c.capacity <;>
      simp [hq, WebSocketClient.close]
  · rw [h1, List.length_map]

/-- Witness for the C1 amended theorem at the two-client sample registry. -/
theorem broadcast_fullQueue_amended_witness :
    broadcastRawEvent [fullClient, emptyClient] [7] =
      [fullClient, emptyClient].map (fun c =>
        if c.sendQueue.length < c.capacity then
          { c with sendQueue := c.sendQueue ++ [[7]] }
        else
          c.close) ∧
    (broadcastRawEvent [fullClient, emptyClient] [7]).map (fun c => c.id)
      = [fullClient, emptyClient].map (fun c => c.id) ∧
    (broadcastRawEvent [fullClient, emptyClient] [7]).length
      = [fullClient, emptyClient].length :=
  broadcast_fullQueue_amended [fullClient, emptyClient] [7] (by decide)

/-- C9: broadcast delivery is independent of the advisory interest filters:
over two registries equal up to their clients' `filters` fields, a broadcast
enqueues the same message to the same connections and closes the same
connections (equality up to `filters` of the resulting registries), and the
broadcast never touches any client's filters. -/
theorem broadcast_independent_of_filters (r r' : Registry) (m : Msg)
    (h : r.map eraseFilters = r'.map eraseFilters) :
    (broadcastRawEvent r m).map eraseFilters =
      (broadcastRawEvent r' m).map eraseFilters ∧
    (broadcastRawEvent r m).map (fun c => c.filters) =
      r.map (fun c => c.filters) := by
  have key : ∀ l : Registry,
      (broadcastRawEvent l m).map eraseFilters =
        (l.map eraseFilters).map (fun c => (c.send m).1) := by
    intro l
    unfold broadcastRawEvent
    rw [List.map_map, List.map_map]
    refine List.map_congr_left ?_
    intro c _
    exact (send_eraseFilters c m).symm
  refine ⟨by rw [key r, key r', h], ?_⟩
  unfold broadcastRawEvent
  rw [List.map_map]
  refine List.map_congr_left ?_
  intro c _
  exact send_filters c m

/-- Witness for C9: registries containing the fresh client with and without
an advisory interest set broadcast identically up to filters. -/
theorem broadcast_independent_of_filters_witness :
    (broadcastRawEvent [interestedClient] [7]).map eraseFilters =
      (broadcastRawEvent [emptyClient] [7]).map eraseFilters ∧
    (broadcastRawEvent [interestedClient] [7]).map (fun c => c.filters) =
      [interestedClient].map (fun c => c.filters) :=
  broadcast_independent_of_filters [interestedClient] [emptyClient] [7]
    (by decide)

/-! ### Listener dispatch lemmas -/

lemma blockEvents_countP_newBlock (b : Block) :
    (blockEvents b).countP (fun e => e.type == EventType.newBlock) = 1 := by
  simp [blockEvents, List.countP_cons, List.countP_map, Function.comp_def]

lemma blockEvents_txHashes (b : Block) :
    ((blockEvents b).filter
        (fun e => e.type == EventType.newTransaction)).map (fun e => e.txHash)
      = b.transactions.map (fun t => t.hash) := by
  simp [blockEvents, List.filter_map, Function.comp_def, List.map_map]

/-- C5: over any finite header sequence whose blocks all fetch successfully,
the dispatch loop emits, per block in feed order, the `NewBlock` event
followed by that block's `NewTransaction` events in transaction-index order;
in total exactly one `NewBlock` event per block and exactly one
`NewTransaction` event per transaction of the fetched blocks, in order. -/
theorem listener_block_order (fetch : Hash → Option Block)
    (headers : List Header) (bof : Header → Block)
    (hf : ∀ h ∈ headers, fetch h.hash = some (bof h)) :
    listenerEmit fetch headers =
      (headers.map (fun h => blockEvents (bof h))).flatten ∧
    (listenerEmit fetch headers).countP
      (fun e => e.type == EventType.newBlock) = headers.length ∧
    ((listenerEmit fetch headers).filter
        (fun e => e.type == EventType.newTransaction)).map (fun e => e.txHash)
      = ((headers.map (fun h => (bof h).transactions)).flatten).map
          (fun t => t.hash) := by
  induction headers with
  | nil => exact ⟨rfl, rfl, rfl⟩
  | cons h t ih =>
      have hh : fetch h.hash = some (bof h) := hf h (List.mem_cons_self h t)
      have ht : ∀ x ∈ t, fetch x.hash = some (bof x) := fun x hx =>
        hf x (List.mem_cons_of_mem h hx)
      obtain ⟨ih1, ih2, ih3⟩ := ih ht
      have hsplit : listenerEmit fetch (h :: t) =
          blockEvents (bof h) ++ listenerEmit fetch t := by
        simp [listenerEmit, processHeader, hh]
      refine ⟨?_, ?_, ?_⟩
      · rw [hsplit, ih1]
        simp
      · rw [hsplit, List.countP_append, blockEvents_countP_newBlock, ih2]
        simp [Nat.add_comm]
      · rw [hsplit, List.filter_append, List.map_append,
          blockEvents_txHashes, ih3]
        simp

/-- Witness for C5 over the two sample headers and sample fetcher. -/
theorem listener_block_order_witness :
    listenerEmit sampleFetch [Header.mk 1, Header.mk 2] =
      ([Header.mk 1, Header.mk 2].map
        (fun h => blockEvents (sampleBof h))).flatten ∧
    (listenerEmit sampleFetch [Header.mk 1, Header.mk 2]).countP
      (fun e => e.type == EventType.newBlock)
      = [Header.mk 1, Header.mk 2].length ∧
    ((listenerEmit sampleFetch [Header.mk 1, Header.mk 2]).filter
        (fun e => e.type == EventType.newTransaction)).map (fun e => e.txHash)
      = (([Header.mk 1, Header.mk 2].map
          (fun h => (sampleBof h).transactions)).flatten).map
          (fun t => t.hash) :=
  listener_block_order sampleFetch [Header.mk 1, Header.mk 2] sampleBof
    (by decide)

/-- C8: a header whose block fetch fails contributes no events and the loop
continues: the trace over the whole sequence is exactly the trace of the
headers before it followed by the trace of the headers after it. -/
theorem failed_fetch_skips_block (fetch : Hash → Option Block)
    (hs1 hs2 : List Header) (h : Header) (hfail : fetch h.hash = none) :
    processHeader fetch h = [] ∧
    listenerEmit fetch (hs1 ++ h :: hs2) =
      listenerEmit fetch hs1 ++ listenerEmit fetch hs2 := by
  have hp : processHeader fetch h = [] := by simp [processHeader, hfail]
  refine ⟨hp, ?_⟩
  simp [listenerEmit, hp]

/-- Witness for C8: header 3 (unknown to the sample fetcher) between the
two sample headers is skipped without affecting their events. -/
theorem failed_fetch_skips_block_witness :
    processHeader sampleFetch (Header.mk 3) = [] ∧
    listenerEmit sampleFetch [Header.mk 1, Header.mk 3, Header.mk 2] =
      listenerEmit sampleFetch [Header.mk 1]
        ++ listenerEmit sampleFetch [Header.mk 2] :=
  failed_fetch_skips_block sampleFetch [Header.mk 1] [Header.mk 2]
    (Header.mk 3) (by decide)

end GoWeb3
